import Mathlib

/-!
# Verification of the TopperBus transit feed client (src/lib/api.ts)

Shallow embedding of the transit feed client and response-normalization
layer.  JavaScript strings are modelled as lists of UTF-16 code units
(`JSString := List Nat`), matching the semantics of `String.prototype`
operations (`replace` with code-unit character classes, `trim`, `slice`,
`length`, `includes`) used by the source.  Numbers are modelled exactly
(`ℚ` for `parseFloat` results, `ℤ` for `parseInt` results); the model
does not reproduce IEEE-754 rounding or overflow, which none of the
verified claims depend on.  Fallible operations return `Except`/`Option`.
-/

/-- JavaScript strings are sequences of UTF-16 code units. -/
abbrev JSString := List Nat

/-- Encode a Lean string as a sequence of UTF-16 code units (surrogate
pairs for codepoints above U+FFFF), the representation JavaScript uses. -/
def toUTF16 (s : String) : JSString :=
  s.data.flatMap fun c =>
    if c.toNat < 0x10000 then [c.toNat]
    else [0xD800 + (c.toNat - 0x10000) / 0x400, 0xDC00 + (c.toNat - 0x10000) % 0x400]

/-- The code units accepted by JavaScript `StrWhiteSpace` (what
`String.prototype.trim` removes): TAB LF VT FF CR SP NBSP ZWNBSP and the
Unicode space separators and line/paragraph separators. -/
def jsWhitespace (u : Nat) : Bool :=
  u = 0x09 ∨ u = 0x0A ∨ u = 0x0B ∨ u = 0x0C ∨ u = 0x0D ∨ u = 0x20 ∨
  u = 0xA0 ∨ u = 0xFEFF ∨ u = 0x1680 ∨ (0x2000 ≤ u ∧ u ≤ 0x200A) ∨
  u = 0x2028 ∨ u = 0x2029 ∨ u = 0x202F ∨ u = 0x205F ∨ u = 0x3000

/-- `String.prototype.trim`: drop JS whitespace from both ends. -/
def jsTrim (s : JSString) : JSString :=
  ((s.dropWhile jsWhitespace).reverse.dropWhile jsWhitespace).reverse

/-- `String.prototype.includes`: substring containment on code units. -/
def jsIncludes (s sub : JSString) : Bool :=
  decide (sub <:+: s)

/-- The character class of the sanitizer regex
`/[\x00-\x08\x0B\x0C\x0E-\x1F\x7F]/`: exactly the code units it removes. -/
def strippedControl (u : Nat) : Bool :=
  u ≤ 0x08 ∨ u = 0x0B ∨ u = 0x0C ∨ (0x0E ≤ u ∧ u ≤ 0x1F) ∨ u = 0x7F

/-- `sanitizeXMLValue` from src/lib/api.ts: `''` on null/empty input
(JS falsiness), otherwise strip the control-character class, trim, and
`slice(0, 500)`. -/
def sanitizeXMLValue (value : Option JSString) : JSString :=
  match value with
  | none => []
  | some s =>
    if s = [] then []
    else (jsTrim (s.filter fun u => ¬ strippedControl u)).take 500

/-- An ASCII decimal digit code unit. -/
def isDigitUnit (u : Nat) : Bool := 0x30 ≤ u ∧ u ≤ 0x39

/-- Numeric value of a list of decimal digit code units. -/
def digitsVal (ds : List Nat) : Nat :=
  ds.foldl (fun a d => a * 10 + (d - 0x30)) 0

/-- Result of JavaScript numeric string conversion: `NaN`, a signed
infinity, or a finite value (modelled exactly as a rational). -/
inductive JSNum where
  | nan : JSNum
  | posInf : JSNum
  | negInf : JSNum
  | finite (q : ℚ) : JSNum
deriving DecidableEq

/-- Split an optional exponent part (`e`/`E`, optional sign, digits) off
the remaining input; the exponent is consumed only when at least one
digit follows, as in the `StrDecimalLiteral` grammar. -/
def jsParseExponent (rest : List Nat) : Int :=
  match rest with
  | e :: rest1 =>
    if e = 0x65 ∨ e = 0x45 then
      let (esign, rest2) : Int × List Nat :=
        match rest1 with
        | 0x2B :: r => (1, r)
        | 0x2D :: r => (-1, r)
        | r => (1, r)
      let eds := rest2.takeWhile isDigitUnit
      if eds = [] then 0 else esign * (digitsVal eds : Int)
    else 0
  | [] => 0

/-- JavaScript `parseFloat`: skip leading whitespace, optional sign,
then the longest `StrDecimalLiteral` prefix — `Infinity`, or digits with
an optional fraction and exponent; `NaN` when no prefix parses. -/
def jsParseFloat (s : JSString) : JSNum :=
  let t := s.dropWhile jsWhitespace
  let (sign, body) : Int × List Nat :=
    match t with
    | 0x2B :: r => (1, r)
    | 0x2D :: r => (-1, r)
    | r => (1, r)
  if toUTF16 "Infinity" <+: body then
    if sign = 1 then JSNum.posInf else JSNum.negInf
  else
    let intDs := body.takeWhile isDigitUnit
    let rest1 := body.dropWhile isDigitUnit
    let (fracDs, rest2) : List Nat × List Nat :=
      match rest1 with
      | 0x2E :: r => (r.takeWhile isDigitUnit, r.dropWhile isDigitUnit)
      | r => ([], r)
    if intDs = [] ∧ fracDs = [] then JSNum.nan
    else
      let hasFracDot : Bool := match rest1 with | 0x2E :: _ => true | _ => false
      let rest3 := if hasFracDot then rest2 else rest1
      let exp := jsParseExponent rest3
      let mantissa : ℚ :=
        (digitsVal intDs : ℚ) + (digitsVal fracDs : ℚ) / ((10 : ℚ) ^ fracDs.length)
      JSNum.finite ((sign : ℚ) * mantissa * (10 : ℚ) ^ exp)

/-- JavaScript `parseInt(s, 10)`: skip leading whitespace, optional
sign, then leading decimal digits; `none` models `NaN` (no digits). -/
def jsParseIntTen (s : JSString) : Option Int :=
  let t := s.dropWhile jsWhitespace
  let (sign, body) : Int × List Nat :=
    match t with
    | 0x2B :: r => (1, r)
    | 0x2D :: r => (-1, r)
    | r => (1, r)
  let ds := body.takeWhile isDigitUnit
  if ds = [] then none else some (sign * (digitsVal ds : Int))

/-- `safeParseFloat` from src/lib/api.ts: default on null/empty input
(JS falsiness) and on NaN/infinite parse results, else the parsed value. -/
def safeParseFloat (value : Option JSString) (defaultValue : ℚ := 0) : ℚ :=
  match value with
  | none => defaultValue
  | some s =>
    if s = [] then defaultValue
    else
      match jsParseFloat s with
      | JSNum.finite q => q
      | _ => defaultValue

/-- `safeParseInt` from src/lib/api.ts: default on null/empty input and
on NaN parse results, else the parsed base-10 integer. -/
def safeParseInt (value : Option JSString) (defaultValue : Int := 0) : Int :=
  match value with
  | none => defaultValue
  | some s =>
    if s = [] then defaultValue
    else
      match jsParseIntTen s with
      | some n => n
      | none => defaultValue

/-!
## DOM model

A parsed XML document is a tree of elements.  `querySelectorAll` with a
bare tag name matches every descendant element with that name in
document (preorder) order; on a `Document` it matches every element of
the tree including the root; `:scope > tag` matches direct children
only.  Attribute access (`getAttribute`) yields `null` for an absent
attribute, modelled as `none`.
-/

/-- A DOM element: tag name, attributes, child elements. -/
inductive XMLElement where
  | mk (name : JSString) (attrs : List (JSString × JSString)) (children : List XMLElement)

/-- Tag name of an element. -/
def XMLElement.name : XMLElement → JSString
  | .mk n _ _ => n

/-- Attribute list of an element. -/
def XMLElement.attrs : XMLElement → List (JSString × JSString)
  | .mk _ a _ => a

/-- Child elements of an element. -/
def XMLElement.children : XMLElement → List XMLElement
  | .mk _ _ c => c

/-- `getAttribute`: the value of the named attribute, `none` if absent. -/
def getAttr (el : XMLElement) (name : JSString) : Option JSString :=
  (el.attrs.find? fun p => p.1 = name).map Prod.snd

mutual
/-- All elements of the subtree rooted at `el`, itself included, in
document (preorder) order. -/
def allElems : XMLElement → List XMLElement
  | .mk n a cs => .mk n a cs :: allElemsList cs

/-- Preorder concatenation of the subtrees of a list of elements. -/
def allElemsList : List XMLElement → List XMLElement
  | [] => []
  | c :: cs => allElems c ++ allElemsList cs
end

/-- `document.querySelectorAll(name)`: every element of the document
tree with the given tag name, the root element included. -/
def docQSA (doc : XMLElement) (name : JSString) : List XMLElement :=
  (allElems doc).filter fun el => el.name = name

/-- `el.querySelectorAll(name)`: every proper descendant of `el` with
the given tag name, in document order. -/
def elQSA (el : XMLElement) (name : JSString) : List XMLElement :=
  (allElemsList el.children).filter fun d => d.name = name

/-- `el.querySelectorAll(':scope > name')`: direct children only. -/
def childQSA (el : XMLElement) (name : JSString) : List XMLElement :=
  el.children.filter fun c => c.name = name

/-!
## Transport layer (`fetchXML`)

The observable behaviour of one HTTP exchange is a `Response`: status,
the two headers `fetchXML` reads, the body text, and the element tree
that `DOMParser.parseFromString` produces for that body (`DOMParser`
never throws; on malformed input it embeds a `parsererror` element,
which is what the code inspects).  `fetchXMLTr` mirrors the source's
check order and additionally records whether `response.text()` was
reached, for the short-circuit claim.
-/

/-- Maximum XML response size (1 MiB), `MAX_RESPONSE_SIZE`. -/
def MAX_RESPONSE_SIZE : Nat := 1024 * 1024

/-- The four failure modes of `fetchXML`, one per `throw` site. -/
inductive FetchError where
  | httpError (status : Nat) : FetchError
  | contentTypeError (contentType : JSString) : FetchError
  | payloadTooLarge : FetchError
  | parseError : FetchError
deriving DecidableEq

/-- Observable data of one HTTP response as `fetchXML` consumes it. -/
structure Response where
  status : Nat
  contentTypeHdr : Option JSString
  contentLengthHdr : Option JSString
  body : JSString
  doc : XMLElement

/-- `response.ok`: status in the inclusive range 200–299. -/
def Response.ok (r : Response) : Bool :=
  200 ≤ r.status ∧ r.status ≤ 299

/-- The guard `contentLength && parseInt(contentLength, 10) > MAX`:
a present, non-empty (truthy) header whose `parseInt` value exceeds the
cap; a `NaN` parse compares false. -/
def declaredTooLarge (r : Response) : Bool :=
  match r.contentLengthHdr with
  | none => false
  | some h =>
    if h = [] then false
    else
      match jsParseIntTen h with
      | none => false
      | some n => MAX_RESPONSE_SIZE < n

/-- A `parsererror` element anywhere in the parsed document
(`doc.querySelector('parsererror')` finds a match). -/
def hasParserError (doc : XMLElement) : Bool :=
  !(docQSA doc (toUTF16 "parsererror")).isEmpty

/-- `fetchXML` from src/lib/api.ts with its effect trace: the result,
paired with whether `await response.text()` was reached (the body was
consumed).  Checks in source order: HTTP status, content type,
declared `content-length`, actual body length, parser error node. -/
def fetchXMLTr (r : Response) : Except FetchError XMLElement × Bool :=
  if ¬ r.ok then (.error (.httpError r.status), false)
  else
    let contentType := r.contentTypeHdr.getD []
    if ¬ jsIncludes contentType (toUTF16 "xml") ∧
       ¬ jsIncludes contentType (toUTF16 "text/plain") then
      (.error (.contentTypeError contentType), false)
    else if declaredTooLarge r then (.error .payloadTooLarge, false)
    else if MAX_RESPONSE_SIZE < r.body.length then (.error .payloadTooLarge, true)
    else if hasParserError r.doc then (.error .parseError, true)
    else (.ok r.doc, true)

/-- `fetchXML`: the result of the transport function. -/
def fetchXML (r : Response) : Except FetchError XMLElement :=
  (fetchXMLTr r).1

/-- Whether `fetchXML` consumed the response body. -/
def fetchXMLReadBody (r : Response) : Bool :=
  (fetchXMLTr r).2

/-!
## Domain records and feed decoders

Typed records produced by the decoders in src/lib/api.ts, with the
decode of each element kept as a separate function so that scoping
(direct children vs. all descendants) is explicit.
-/

/-- A stop on a route. -/
structure Stop where
  tag : JSString
  title : JSString
  shortTitle : Option JSString
  lat : ℚ
  lon : ℚ
  stopId : JSString
deriving DecidableEq

/-- A travel direction of a route, with its ordered stop-tag list. -/
structure Direction where
  tag : JSString
  title : JSString
  name : JSString
  useForUI : Bool
  stops : List JSString
deriving DecidableEq

/-- One point of a route polyline. -/
structure PathPoint where
  lat : ℚ
  lon : ℚ
deriving DecidableEq

/-- A decoded route. -/
structure Route where
  tag : JSString
  title : JSString
  color : JSString
  oppositeColor : JSString
  latMin : ℚ
  latMax : ℚ
  lonMin : ℚ
  lonMax : ℚ
  stops : List Stop
  directions : List Direction
  paths : List (List PathPoint)
deriving DecidableEq

/-- One upcoming-arrival estimate. -/
structure Prediction where
  epochTime : Int
  seconds : Int
  minutes : Int
  isDeparture : Bool
  affectedByLayover : Bool
  dirTag : JSString
  vehicle : JSString
  block : JSString
deriving DecidableEq

/-- Predictions of one direction at one stop. -/
structure PredictionDirection where
  title : JSString
  predictions : List Prediction
deriving DecidableEq

/-- All predictions for one stop and route pair. -/
structure StopPredictions where
  stopTag : JSString
  stopTitle : JSString
  routeTag : JSString
  routeTitle : JSString
  directions : List PredictionDirection
deriving DecidableEq

/-- Decode of one `stop` element inside a route (the `stops.push` body
of `fetchRouteConfig`); `shortTitle` is set only for a truthy
(present, non-empty) attribute. -/
def decodeStop (stopEl : XMLElement) : Stop where
  tag := sanitizeXMLValue (getAttr stopEl (toUTF16 "tag"))
  title := sanitizeXMLValue (getAttr stopEl (toUTF16 "title"))
  shortTitle :=
    match getAttr stopEl (toUTF16 "shortTitle") with
    | none => none
    | some v => if v = [] then none else some (sanitizeXMLValue (some v))
  lat := safeParseFloat (getAttr stopEl (toUTF16 "lat"))
  lon := safeParseFloat (getAttr stopEl (toUTF16 "lon"))
  stopId := sanitizeXMLValue (getAttr stopEl (toUTF16 "stopId"))

/-- Decode of one `direction` element inside a route: its stop-tag list
comes from the `stop` elements nested inside the direction itself. -/
def decodeDirection (dirEl : XMLElement) : Direction where
  tag := sanitizeXMLValue (getAttr dirEl (toUTF16 "tag"))
  title := sanitizeXMLValue (getAttr dirEl (toUTF16 "title"))
  name := sanitizeXMLValue (getAttr dirEl (toUTF16 "name"))
  useForUI := getAttr dirEl (toUTF16 "useForUI") = some (toUTF16 "true")
  stops := (elQSA dirEl (toUTF16 "stop")).map fun stopEl =>
    sanitizeXMLValue (getAttr stopEl (toUTF16 "tag"))

/-- Decode of one `point` element of a path. -/
def decodePoint (pointEl : XMLElement) : PathPoint where
  lat := safeParseFloat (getAttr pointEl (toUTF16 "lat"))
  lon := safeParseFloat (getAttr pointEl (toUTF16 "lon"))

/-- A JS `sanitized || fallback` default (used for the route colors):
the sanitized value unless it is empty (falsy). -/
def jsOrDefault (v : JSString) (fallback : JSString) : JSString :=
  if v = [] then fallback else v

/-- Decode of one `route` element: stops from DIRECT children
(`:scope > stop`), directions and paths from all nested descendants,
a path kept only when it has at least one point. -/
def decodeRoute (routeEl : XMLElement) : Route where
  tag := sanitizeXMLValue (getAttr routeEl (toUTF16 "tag"))
  title := sanitizeXMLValue (getAttr routeEl (toUTF16 "title"))
  color := jsOrDefault (sanitizeXMLValue (getAttr routeEl (toUTF16 "color"))) (toUTF16 "000000")
  oppositeColor :=
    jsOrDefault (sanitizeXMLValue (getAttr routeEl (toUTF16 "oppositeColor"))) (toUTF16 "ffffff")
  latMin := safeParseFloat (getAttr routeEl (toUTF16 "latMin"))
  latMax := safeParseFloat (getAttr routeEl (toUTF16 "latMax"))
  lonMin := safeParseFloat (getAttr routeEl (toUTF16 "lonMin"))
  lonMax := safeParseFloat (getAttr routeEl (toUTF16 "lonMax"))
  stops := (childQSA routeEl (toUTF16 "stop")).map decodeStop
  directions := (elQSA routeEl (toUTF16 "direction")).map decodeDirection
  paths :=
    ((elQSA routeEl (toUTF16 "path")).map fun pathEl =>
      (elQSA pathEl (toUTF16 "point")).map decodePoint).filter fun points =>
        points.length > 0

/-- The document-walking part of `fetchRouteConfig`: one `Route` per
element matched by `doc.querySelectorAll('route')`. -/
def decodeRoutes (doc : XMLElement) : List Route :=
  (docQSA doc (toUTF16 "route")).map decodeRoute

/-- Decode of one `prediction` element. -/
def decodePrediction (pEl : XMLElement) : Prediction where
  epochTime := safeParseInt (getAttr pEl (toUTF16 "epochTime"))
  seconds := safeParseInt (getAttr pEl (toUTF16 "seconds"))
  minutes := safeParseInt (getAttr pEl (toUTF16 "minutes"))
  isDeparture := getAttr pEl (toUTF16 "isDeparture") = some (toUTF16 "true")
  affectedByLayover := getAttr pEl (toUTF16 "affectedByLayover") = some (toUTF16 "true")
  dirTag := sanitizeXMLValue (getAttr pEl (toUTF16 "dirTag"))
  vehicle := sanitizeXMLValue (getAttr pEl (toUTF16 "vehicle"))
  block := sanitizeXMLValue (getAttr pEl (toUTF16 "block"))

/-- Decode of one `direction` element of a predictions wrapper: `none`
(no entry pushed) when it contains zero `prediction` elements. -/
def decodePredDirection (dirEl : XMLElement) : Option PredictionDirection :=
  let preds := (elQSA dirEl (toUTF16 "prediction")).map decodePrediction
  if preds.length > 0 then
    some { title := sanitizeXMLValue (getAttr dirEl (toUTF16 "title")), predictions := preds }
  else none

/-- Decode of one `predictions` wrapper element: `none` (no entry
pushed) when every nested direction was discarded. -/
def decodeStopPredictions (predEl : XMLElement) : Option StopPredictions :=
  let directions := (elQSA predEl (toUTF16 "direction")).filterMap decodePredDirection
  if directions.length > 0 then
    some { stopTag := sanitizeXMLValue (getAttr predEl (toUTF16 "stopTag"))
           stopTitle := sanitizeXMLValue (getAttr predEl (toUTF16 "stopTitle"))
           routeTag := sanitizeXMLValue (getAttr predEl (toUTF16 "routeTag"))
           routeTitle := sanitizeXMLValue (getAttr predEl (toUTF16 "routeTitle"))
           directions := directions }
  else none

/-- The document-walking part of `fetchPredictions`: decode every
`predictions` wrapper, keeping only the surviving ones. -/
def decodePredictions (doc : XMLElement) : List StopPredictions :=
  (docQSA doc (toUTF16 "predictions")).filterMap decodeStopPredictions

/-!
## Aggregation helper (`fetchAllPredictionsForStop`)

`fetchPredictions stopTag routeTag` is one network round-trip; the
helper is parameterized by that operation as an oracle
`predFetch : stopTag → routeTag → Except FetchError (List StopPredictions)`
so that the sequential `for … await` loop and its abort-on-failure
semantics can be stated.  The trace component records the route tags of
the prediction fetches actually issued, in order.
-/

/-- The filter `routes.filter(route => route.stops.some(stop =>
stop.tag === stopTag))`: the routes whose stop list contains the tag. -/
def routesServing (routes : List Route) (stopTag : JSString) : List Route :=
  routes.filter fun route => route.stops.any fun stop => stop.tag = stopTag

/-- The sequential `for (const route of routesWithStop)` loop: await
one fetch per route, abort on the first failure, concatenate results.
Returns the outcome paired with the trace of issued requests. -/
def fetchLoop (predFetch : JSString → JSString → Except FetchError (List StopPredictions))
    (stopTag : JSString) :
    List Route → Except FetchError (List StopPredictions) × List JSString
  | [] => (.ok [], [])
  | route :: rest =>
    match predFetch stopTag route.tag with
    | .error e => (.error e, [route.tag])
    | .ok preds =>
      let (res, reqs) := fetchLoop predFetch stopTag rest
      (res.map fun later => preds ++ later, route.tag :: reqs)

/-- `fetchAllPredictionsForStop` from src/lib/api.ts with its request
trace: filter the routes serving the stop, then run the sequential
fetch loop over them. -/
def fetchAllPredictionsForStopTr
    (predFetch : JSString → JSString → Except FetchError (List StopPredictions))
    (routes : List Route) (stopTag : JSString) :
    Except FetchError (List StopPredictions) × List JSString :=
  fetchLoop predFetch stopTag (routesServing routes stopTag)

/-- The result of `fetchAllPredictionsForStop`. -/
def fetchAllPredictionsForStop
    (predFetch : JSString → JSString → Except FetchError (List StopPredictions))
    (routes : List Route) (stopTag : JSString) :
    Except FetchError (List StopPredictions) :=
  (fetchAllPredictionsForStopTr predFetch routes stopTag).1

/-- The route tags of the prediction fetches issued, in order. -/
def fetchAllRequests
    (predFetch : JSString → JSString → Except FetchError (List StopPredictions))
    (routes : List Route) (stopTag : JSString) : List JSString :=
  (fetchAllPredictionsForStopTr predFetch routes stopTag).2

/-!
## Concrete fixtures used by witnesses and counterexamples
-/

/-- An empty parsed document body (no `parsererror`). -/
def emptyDoc : XMLElement := .mk (toUTF16 "body") [] []

/-- A 404 response that also declares a 2,000,000-byte body. -/
def resp404Large : Response where
  status := 404
  contentTypeHdr := some (toUTF16 "text/xml")
  contentLengthHdr := some (toUTF16 "2000000")
  body := []
  doc := emptyDoc

/-- A 200 response declaring a 2,000,000-byte body. -/
def resp200Large : Response where
  status := 200
  contentTypeHdr := some (toUTF16 "text/xml")
  contentLengthHdr := some (toUTF16 "2000000")
  body := toUTF16 "<body></body>"
  doc := emptyDoc

/-- A plain 404 response. -/
def resp404 : Response where
  status := 404
  contentTypeHdr := some (toUTF16 "text/xml")
  contentLengthHdr := none
  body := []
  doc := emptyDoc

/-- A document with a `route` element nested inside another route's
direction: `querySelectorAll('route')` matches both, though only the
outer one is a top-level (child-of-root) route element. -/
def cexNestedRouteDoc : XMLElement :=
  .mk (toUTF16 "body") []
    [.mk (toUTF16 "route") []
      [.mk (toUTF16 "direction") []
        [.mk (toUTF16 "route") [] []]]]

/-- A stop element that is a direct child of the route element. -/
def exStopEl : XMLElement :=
  .mk (toUTF16 "stop") [(toUTF16 "tag", toUTF16 "123"), (toUTF16 "title", toUTF16 "Main St")] []

/-- A stop reference nested inside a direction element. -/
def exDirStopEl : XMLElement :=
  .mk (toUTF16 "stop") [(toUTF16 "tag", toUTF16 "456")] []

/-- A direction element with one nested stop reference. -/
def exDirEl : XMLElement :=
  .mk (toUTF16 "direction")
    [(toUTF16 "tag", toUTF16 "out"), (toUTF16 "useForUI", toUTF16 "true")] [exDirStopEl]

/-- A direction element whose `useForUI` attribute is `"True"`, not the
exact string `"true"`. -/
def exDirTrueCapEl : XMLElement :=
  .mk (toUTF16 "direction") [(toUTF16 "useForUI", toUTF16 "True")] []

/-- A path point element (attribute-free; coordinates default to 0). -/
def exPointEl : XMLElement := .mk (toUTF16 "point") [] []

/-- A path element with zero point children. -/
def exEmptyPathEl : XMLElement := .mk (toUTF16 "path") [] []

/-- A path element with one point. -/
def exPathEl : XMLElement := .mk (toUTF16 "path") [] [exPointEl]

/-- A route element with a direct-child stop, a direction holding its
own stop reference, an empty path, and a one-point path. -/
def exRouteEl : XMLElement :=
  .mk (toUTF16 "route") [(toUTF16 "tag", toUTF16 "red")]
    [exStopEl, exDirEl, exEmptyPathEl, exPathEl]

/-- A route-config document holding `exRouteEl`. -/
def exRouteDoc : XMLElement := .mk (toUTF16 "body") [] [exRouteEl]

/-- A prediction element. -/
def exPredEl : XMLElement := .mk (toUTF16 "prediction") [(toUTF16 "minutes", toUTF16 "5")] []

/-- A direction element with zero prediction children. -/
def exEmptyPredDirEl : XMLElement := .mk (toUTF16 "direction") [(toUTF16 "title", toUTF16 "Empty")] []

/-- A direction element with one prediction. -/
def exFullPredDirEl : XMLElement :=
  .mk (toUTF16 "direction") [(toUTF16 "title", toUTF16 "East")] [exPredEl]

/-- A predictions wrapper holding one empty and one non-empty direction. -/
def exWrapperEl : XMLElement :=
  .mk (toUTF16 "predictions") [(toUTF16 "stopTag", toUTF16 "123")] [exEmptyPredDirEl, exFullPredDirEl]

/-- A predictions wrapper all of whose directions are empty. -/
def exEmptyWrapperEl : XMLElement :=
  .mk (toUTF16 "predictions") [] [exEmptyPredDirEl]

/-- A predictions document with both wrappers. -/
def exPredDoc : XMLElement := .mk (toUTF16 "body") [] [exWrapperEl, exEmptyWrapperEl]

/-- The record `decodePredictions exPredDoc` produces (the empty
direction and the empty wrapper are discarded). -/
def exDecodedSP : StopPredictions where
  stopTag := toUTF16 "123"
  stopTitle := []
  routeTag := []
  routeTitle := []
  directions :=
    [{ title := toUTF16 "East",
       predictions :=
        [{ epochTime := 0, seconds := 0, minutes := 5, isDeparture := false,
           affectedByLayover := false, dirTag := [], vehicle := [], block := [] }] }]

/-- A minimal stop record with the given tag. -/
def mkTestStop (t : String) : Stop where
  tag := toUTF16 t
  title := []
  shortTitle := none
  lat := 0
  lon := 0
  stopId := []

/-- A minimal route record with the given tag and stops. -/
def mkTestRoute (t : String) (stops : List Stop) : Route where
  tag := toUTF16 t
  title := []
  color := []
  oppositeColor := []
  latMin := 0
  latMax := 0
  lonMin := 0
  lonMax := 0
  stops := stops
  directions := []
  paths := []

/-- A route serving stop "123". -/
def routeA : Route := mkTestRoute "A" [mkTestStop "123"]

/-- A route not serving stop "123". -/
def routeB : Route := mkTestRoute "B" [mkTestStop "999"]

/-- Another route serving stop "123" (as its second stop). -/
def routeC : Route := mkTestRoute "C" [mkTestStop "7", mkTestStop "123"]

/-- Three routes of which exactly the first and third serve stop "123". -/
def exRoutes : List Route := [routeA, routeB, routeC]

/-- A prediction fetch oracle that always succeeds, tagging its result
with the requested stop and route. -/
def exOkFetch : JSString → JSString → Except FetchError (List StopPredictions) :=
  fun stopTag routeTag =>
    .ok [{ stopTag := stopTag, stopTitle := [], routeTag := routeTag,
           routeTitle := [], directions := [] }]

/-- The per-route result `exOkFetch` yields for stop "123". -/
def exOkResult (route : Route) : List StopPredictions :=
  [{ stopTag := toUTF16 "123", stopTitle := [], routeTag := route.tag,
     routeTitle := [], directions := [] }]

/-- A prediction fetch oracle that fails on route "C" and succeeds with
an empty list elsewhere. -/
def exFailFetch : JSString → JSString → Except FetchError (List StopPredictions) :=
  fun _ routeTag =>
    if routeTag = toUTF16 "C" then .error .parseError else .ok []

/-!
## Helper lemmas
-/

/-- Trimming is a sublist operation. -/
theorem jsTrim_sublist (s : JSString) : (jsTrim s).Sublist s := by
  have h1 : (s.dropWhile jsWhitespace).Sublist s := List.dropWhile_sublist _
  have h2 : ((s.dropWhile jsWhitespace).reverse.dropWhile jsWhitespace).Sublist
      (s.dropWhile jsWhitespace).reverse := List.dropWhile_sublist _
  have h3 := h2.reverse
  rw [List.reverse_reverse] at h3
  exact h3.trans h1

/-- Every code unit surviving `sanitizeXMLValue` came through the
control-character filter. -/
theorem sanitize_mem_filter (s : JSString) (u : Nat)
    (hu : u ∈ sanitizeXMLValue (some s)) :
    u ∈ s.filter fun v => ¬ strippedControl v := by
  simp only [sanitizeXMLValue] at hu
  split at hu
  · simp at hu
  · exact List.Sublist.mem hu ((List.take_sublist _ _).trans (jsTrim_sublist _))

/-!
## Claim theorems
-/

/-- C2: `sanitizeXMLValue` (the spec's `sanitizeText`) is total, returns
the empty string for absent input, and otherwise is exactly the pipeline
"strip the code units 0x00–0x08, 0x0B, 0x0C, 0x0E–0x1F, 0x7F (and no
others), trim leading/trailing whitespace, truncate to 500 units", so
every output is at most 500 units long and free of those control
units. -/
theorem sanitizeXMLValue_spec :
    sanitizeXMLValue none = [] ∧
    (∀ s : JSString, sanitizeXMLValue (some s) =
      (jsTrim (s.filter fun u => ¬ strippedControl u)).take 500) ∧
    (∀ v : Option JSString, (sanitizeXMLValue v).length ≤ 500) ∧
    (∀ v : Option JSString, ∀ u ∈ sanitizeXMLValue v, strippedControl u = false) := by
  refine ⟨rfl, ?_, ?_, ?_⟩
  · intro s
    by_cases hs : s = []
    · subst hs; rfl
    · simp only [sanitizeXMLValue, if_neg hs]
  · intro v
    match v with
    | none => simp [sanitizeXMLValue]
    | some s =>
      by_cases hs : s = []
      · subst hs; simp [sanitizeXMLValue]
      · simp only [sanitizeXMLValue, if_neg hs]
        calc (List.take 500 (jsTrim (s.filter fun u => ¬ strippedControl u))).length
            = 500 ⊓ (jsTrim (s.filter fun u => ¬ strippedControl u)).length :=
              List.length_take _ _
          _ ≤ 500 := inf_le_left
  · intro v u hu
    match v with
    | none => simp [sanitizeXMLValue] at hu
    | some s =>
      have hmem := sanitize_mem_filter s u hu
      have := (List.mem_filter.mp hmem).2
      simpa using this

/-- Witness for C2 at concrete inputs: a string with a NUL byte and
padding whitespace sanitizes within bounds and keeps no stripped unit. -/
theorem sanitizeXMLValue_spec_witness :
    (sanitizeXMLValue (some (toUTF16 "  he\x00llo  "))).length ≤ 500 ∧
    strippedControl 104 = false := by
  refine ⟨sanitizeXMLValue_spec.2.2.1 (some (toUTF16 "  he\x00llo  ")), ?_⟩
  exact sanitizeXMLValue_spec.2.2.2 (some (toUTF16 "  he\x00llo  ")) 104 (by decide)

/-- C3: `safeParseFloat`/`safeParseInt` (the spec's `safeFloat`/`safeInt`)
are total and return exactly the supplied default on absent, empty,
non-numeric, NaN, or infinite input, and the parsed value (base-10
integer parsing for `safeParseInt`) on numeric input; checked both in
general over the parse result and on concrete inputs exercising the
NaN, Infinity, and numeric branches of the parser model. -/
theorem safeParse_spec :
    (∀ d : ℚ, safeParseFloat none d = d) ∧
    (∀ d : ℚ, safeParseFloat (some []) d = d) ∧
    (∀ (s : JSString) (d : ℚ),
      jsParseFloat s = JSNum.nan ∨ jsParseFloat s = JSNum.posInf ∨
        jsParseFloat s = JSNum.negInf →
      safeParseFloat (some s) d = d) ∧
    (∀ (s : JSString) (d q : ℚ), s ≠ [] → jsParseFloat s = JSNum.finite q →
      safeParseFloat (some s) d = q) ∧
    (∀ d : Int, safeParseInt none d = d) ∧
    (∀ d : Int, safeParseInt (some []) d = d) ∧
    (∀ (s : JSString) (d : Int), jsParseIntTen s = none → safeParseInt (some s) d = d) ∧
    (∀ (s : JSString) (d n : Int), s ≠ [] → jsParseIntTen s = some n →
      safeParseInt (some s) d = n) ∧
    (∀ d : ℚ, safeParseFloat (some (toUTF16 "Infinity")) d = d) ∧
    (∀ d : ℚ, safeParseFloat (some (toUTF16 "-Infinity")) d = d) ∧
    (∀ d : ℚ, safeParseFloat (some (toUTF16 "abc")) d = d) ∧
    safeParseFloat (some (toUTF16 "3.5")) 0 = 7 / 2 ∧
    safeParseInt (some (toUTF16 "  -42px")) 0 = -42 ∧
    (∀ d : Int, safeParseInt (some (toUTF16 "px")) d = d) := by
  refine ⟨fun d => rfl, fun d => rfl, ?_, ?_, fun d => rfl, fun d => rfl, ?_, ?_,
    ?_, ?_, ?_, ?_, ?_, ?_⟩
  · intro s d h
    by_cases hs : s = []
    · subst hs; rfl
    · simp only [safeParseFloat, if_neg hs]
      rcases h with h | h | h <;> rw [h]
  · intro s d q hs h
    simp only [safeParseFloat, if_neg hs, h]
  · intro s d h
    by_cases hs : s = []
    · subst hs; rfl
    · simp only [safeParseInt, if_neg hs, h]
  · intro s d n hs h
    simp only [safeParseInt, if_neg hs, h]
  · intro d
    have h : jsParseFloat (toUTF16 "Infinity") = JSNum.posInf := by decide
    simp only [safeParseFloat, h]
    split <;> simp_all
  · intro d
    have h : jsParseFloat (toUTF16 "-Infinity") = JSNum.negInf := by decide
    simp only [safeParseFloat, h]
    split <;> simp_all
  · intro d
    have h : jsParseFloat (toUTF16 "abc") = JSNum.nan := by decide
    simp only [safeParseFloat, h]
    split <;> simp_all
  · have h16 : toUTF16 "3.5" = [51, 46, 53] := by decide
    rw [h16]
    simp +decide [safeParseFloat, jsParseFloat, jsParseExponent, digitsVal]
    norm_num
  · have h16 : toUTF16 "  -42px" = [32, 32, 45, 52, 50, 112, 120] := by decide
    rw [h16]
    simp +decide [safeParseInt, jsParseIntTen, digitsVal]
  · intro d
    have h : jsParseIntTen (toUTF16 "px") = none := by decide
    simp only [safeParseInt, h]
    split <;> simp_all

/-- Witness for C3 at concrete inputs, discharging each hypothesis: the
non-numeric string `"px"` yields the default 9, the numeric string
`"  -42px"` yields the parsed value. -/
theorem safeParse_spec_witness :
    safeParseInt (some (toUTF16 "px")) 9 = 9 ∧
    safeParseInt (some (toUTF16 "  -42px")) 9 = -42 ∧
    safeParseFloat (some (toUTF16 "Infinity")) 5 = 5 := by
  refine ⟨?_, ?_, ?_⟩
  · exact safeParse_spec.2.2.2.2.2.2.1 (toUTF16 "px") 9 (by decide)
  · exact safeParse_spec.2.2.2.2.2.2.2.1 (toUTF16 "  -42px") 9 (-42) (by decide) (by decide)
  · exact safeParse_spec.2.2.2.2.2.2.2.2.1 5

/-- C1: for every HTTP response, `fetchXML` (the spec's `fetchDocument`)
either fails with exactly one of the four typed errors or returns the
parsed document (the `Except` result is total and `FetchError` has
exactly these four constructors): a non-2xx status always yields the
HTTP error carrying that status (in particular 404 yields status 404 and
no document); a content-type error only arises when the content-type
header contains neither "xml" nor "text/plain"; a payload error only
when the declared or actual body size exceeds 1,048,576; a parse error
only when the parser's error-reporting node is present; and a returned
document passed every check. -/
theorem fetchXML_error_taxonomy (r : Response) :
    (r.ok = false → fetchXML r = .error (.httpError r.status)) ∧
    (r.status = 404 → fetchXML r = .error (.httpError 404) ∧ ∀ d, fetchXML r ≠ .ok d) ∧
    (∀ ct, fetchXML r = .error (.contentTypeError ct) →
      ct = r.contentTypeHdr.getD [] ∧
      jsIncludes ct (toUTF16 "xml") = false ∧ jsIncludes ct (toUTF16 "text/plain") = false) ∧
    (fetchXML r = .error .payloadTooLarge →
      declaredTooLarge r = true ∨ MAX_RESPONSE_SIZE < r.body.length) ∧
    (fetchXML r = .error .parseError → hasParserError r.doc = true) ∧
    (∀ d, fetchXML r = .ok d →
      d = r.doc ∧ r.ok = true ∧
      (jsIncludes (r.contentTypeHdr.getD []) (toUTF16 "xml") = true ∨
       jsIncludes (r.contentTypeHdr.getD []) (toUTF16 "text/plain") = true) ∧
      declaredTooLarge r = false ∧ r.body.length ≤ MAX_RESPONSE_SIZE ∧
      hasParserError r.doc = false) := by
  have h404 : r.status = 404 → ¬ r.ok = true := by
    intro h
    simp [Response.ok, h]
  by_cases h1 : r.ok = true
  case neg =>
    have hv : fetchXML r = .error (.httpError r.status) := by
      simp [fetchXML, fetchXMLTr, h1]
    exact ⟨fun _ => hv, fun h => ⟨by rw [hv, h], by simp [hv]⟩, by simp [hv],
      by simp [hv], by simp [hv], by simp [hv]⟩
  case pos =>
    have hj1 : (r.ok = false → fetchXML r = .error (.httpError r.status)) := by
      intro h
      rw [h] at h1
      exact absurd h1 (by simp)
    have hj2 : r.status = 404 → fetchXML r = .error (.httpError 404) ∧
        ∀ d, fetchXML r ≠ .ok d := fun h => absurd h1 (h404 h)
    by_cases h2 : jsIncludes (r.contentTypeHdr.getD []) (toUTF16 "xml") = true ∨
        jsIncludes (r.contentTypeHdr.getD []) (toUTF16 "text/plain") = true
    case neg =>
      push_neg at h2
      have hv : fetchXML r = .error (.contentTypeError (r.contentTypeHdr.getD [])) := by
        simp [fetchXML, fetchXMLTr, h1, h2.1, h2.2]
      refine ⟨hj1, hj2, ?_, by simp [hv], by simp [hv], by simp [hv]⟩
      intro ct h
      rw [hv] at h
      have hct : r.contentTypeHdr.getD [] = ct := by
        injection h with h
        injection h
      subst hct
      exact ⟨rfl, by simpa using h2.1, by simpa using h2.2⟩
    case pos =>
      have hctOK : ¬ (jsIncludes (r.contentTypeHdr.getD []) (toUTF16 "xml") = false ∧
          jsIncludes (r.contentTypeHdr.getD []) (toUTF16 "text/plain") = false) := by
        rcases h2 with h | h <;> simp [h]
      by_cases h3 : declaredTooLarge r = true
      case pos =>
        have hv : fetchXML r = .error .payloadTooLarge := by
          simp [fetchXML, fetchXMLTr, h1, hctOK, h3]
        exact ⟨hj1, hj2, by simp [hv], fun _ => Or.inl h3, by simp [hv], by simp [hv]⟩
      case neg =>
        by_cases h4 : MAX_RESPONSE_SIZE < r.body.length
        case pos =>
          have hv : fetchXML r = .error .payloadTooLarge := by
            simp [fetchXML, fetchXMLTr, h1, hctOK, h3, h4]
          exact ⟨hj1, hj2, by simp [hv], fun _ => Or.inr h4, by simp [hv], by simp [hv]⟩
        case neg =>
          by_cases h5 : hasParserError r.doc = true
          case pos =>
            have hv : fetchXML r = .error .parseError := by
              simp [fetchXML, fetchXMLTr, h1, hctOK, h3, h4, h5]
            exact ⟨hj1, hj2, by simp [hv], by simp [hv], fun _ => h5, by simp [hv]⟩
          case neg =>
            have hv : fetchXML r = .ok r.doc := by
              simp [fetchXML, fetchXMLTr, h1, hctOK, h3, h4, h5]
            refine ⟨hj1, hj2, by simp [hv], by simp [hv], by simp [hv], ?_⟩
            intro d h
            rw [hv] at h
            have hd : r.doc = d := by injection h
            subst hd
            exact ⟨rfl, h1, h2, by simpa using h3, by omega, by simpa using h5⟩

/-- Witness for C1 at a concrete 404 response: the fetch fails with the
HTTP error carrying status 404. -/
theorem fetchXML_error_taxonomy_witness :
    fetchXML resp404 = .error (.httpError 404) :=
  ((fetchXML_error_taxonomy resp404).2.1 rfl).1

/-- Counterexample to C4 as stated: a 404 response whose
`content-length` header declares 2,000,000 bytes does NOT fail with the
payload-too-large error — the HTTP status check runs first, so it fails
with the HTTP error instead. -/
theorem fetchXML_declared_large_cex :
    declaredTooLarge resp404Large = true ∧
    fetchXML resp404Large = .error (.httpError 404) ∧
    fetchXML resp404Large ≠ .error .payloadTooLarge := by
  refine ⟨by decide, rfl, ?_⟩
  intro h
  rw [show fetchXML resp404Large = .error (.httpError 404) from rfl] at h
  exact FetchError.noConfusion (Except.error.inj h)

/-- C4 (amended): whenever the `content-length` header declares a size
above 1,048,576 bytes, the body is never read — the declared-size check
precedes and short-circuits body consumption — and if the response
additionally has a 2xx status and an allowed content type (the checks
that run before the size check), `fetchXML` fails with the
payload-too-large error. -/
theorem fetchXML_declared_large_spec (r : Response)
    (h : declaredTooLarge r = true) :
    fetchXMLReadBody r = false ∧
    (r.ok = true →
      (jsIncludes (r.contentTypeHdr.getD []) (toUTF16 "xml") = true ∨
       jsIncludes (r.contentTypeHdr.getD []) (toUTF16 "text/plain") = true) →
      fetchXML r = .error .payloadTooLarge) := by
  constructor
  · unfold fetchXMLReadBody fetchXMLTr
    by_cases h1 : r.ok = true
    · by_cases hct : jsIncludes (r.contentTypeHdr.getD []) (toUTF16 "xml") = false ∧
          jsIncludes (r.contentTypeHdr.getD []) (toUTF16 "text/plain") = false
      · simp [h1, hct]
      · simp [h1, hct, h]
    · simp [h1]
  · intro h1 h2
    have hctOK : ¬ (jsIncludes (r.contentTypeHdr.getD []) (toUTF16 "xml") = false ∧
        jsIncludes (r.contentTypeHdr.getD []) (toUTF16 "text/plain") = false) := by
      rcases h2 with h2 | h2 <;> simp [h2]
    simp [fetchXML, fetchXMLTr, h1, hctOK, h]

/-- Witness for C4 (amended) at a concrete response: status 200,
content type `text/xml`, declared `content-length` 2,000,000 — the body
is not read and the result is the payload-too-large error. -/
theorem fetchXML_declared_large_spec_witness :
    fetchXMLReadBody resp200Large = false ∧
    fetchXML resp200Large = .error .payloadTooLarge := by
  have h := fetchXML_declared_large_spec resp200Large (by decide)
  exact ⟨h.1, h.2 (by decide) (Or.inl (by decide))⟩

/-- Counterexample to C5 as stated: `fetchRouteConfig` does not decode
only the TOP-LEVEL route elements — `doc.querySelectorAll('route')`
matches route elements at any depth, so a document whose single
top-level route contains a nested route element decodes to TWO `Route`
records. -/
theorem decodeRoutes_toplevel_cex :
    (decodeRoutes cexNestedRouteDoc).length = 2 ∧
    (childQSA cexNestedRouteDoc (toUTF16 "route")).length = 1 ∧ (2 : Nat) ≠ 1 :=
  ⟨rfl, rfl, by decide⟩

/-- C5 (amended): `fetchRouteConfig` decodes one `Route` record per
route element ANYWHERE in the document (in document order), not only
top-level ones; each Route's own stop list is assembled exclusively
from the route element's direct child stop elements, while a stop
reference nested inside a direction sub-element goes into that decoded
direction's ordered stop-tag list. -/
theorem decodeRoutes_scope_spec (doc routeEl dirEl : XMLElement) :
    (decodeRoutes doc).length = (docQSA doc (toUTF16 "route")).length ∧
    (∀ st ∈ (decodeRoute routeEl).stops,
      ∃ c ∈ routeEl.children, c.name = toUTF16 "stop" ∧ st = decodeStop c) ∧
    (dirEl ∈ elQSA routeEl (toUTF16 "direction") →
      decodeDirection dirEl ∈ (decodeRoute routeEl).directions ∧
      ∀ stopEl ∈ elQSA dirEl (toUTF16 "stop"),
        sanitizeXMLValue (getAttr stopEl (toUTF16 "tag")) ∈ (decodeDirection dirEl).stops) := by
  refine ⟨List.length_map _ _, ?_, ?_⟩
  · intro st hst
    have hst2 : st ∈ (childQSA routeEl (toUTF16 "stop")).map decodeStop := hst
    obtain ⟨c, hc, hcd⟩ := List.mem_map.mp hst2
    obtain ⟨hcc, hcn⟩ := List.mem_filter.mp hc
    exact ⟨c, hcc, by simpa using hcn, hcd.symm⟩
  · intro hdir
    constructor
    · exact List.mem_map.mpr ⟨dirEl, hdir, rfl⟩
    · intro stopEl hstop
      exact List.mem_map.mpr ⟨stopEl, hstop, rfl⟩

/-- Witness for C5 (amended) at a concrete route element: the direction
nested in `exRouteEl` is decoded with its own stop reference "456" in
its stop-tag list. -/
theorem decodeRoutes_scope_spec_witness :
    decodeDirection exDirEl ∈ (decodeRoute exRouteEl).directions ∧
    sanitizeXMLValue (getAttr exDirStopEl (toUTF16 "tag")) ∈ (decodeDirection exDirEl).stops := by
  have hdir : exDirEl ∈ elQSA exRouteEl (toUTF16 "direction") := by
    rw [show elQSA exRouteEl (toUTF16 "direction") = [exDirEl] from rfl]
    exact List.mem_singleton.mpr rfl
  have hstop : exDirStopEl ∈ elQSA exDirEl (toUTF16 "stop") := by
    rw [show elQSA exDirEl (toUTF16 "stop") = [exDirStopEl] from rfl]
    exact List.mem_singleton.mpr rfl
  have h := (decodeRoutes_scope_spec exRouteDoc exRouteEl exDirEl).2.2 hdir
  exact ⟨h.1, h.2 exDirStopEl hstop⟩

/-- A direction entry is only produced with a non-empty prediction
list. -/
theorem decodePredDirection_some_ne_nil (dirEl : XMLElement) (d : PredictionDirection)
    (h : decodePredDirection dirEl = some d) : d.predictions ≠ [] := by
  simp only [decodePredDirection] at h
  split at h
  case isTrue hlen =>
    injection h with h2
    subst h2
    exact List.ne_nil_of_length_pos hlen
  case isFalse => exact absurd h (by simp)

/-- C6: every `StopPredictions` returned by `fetchPredictions` has at
least one direction and every direction in it at least one prediction;
a direction element with zero nested prediction elements produces no
direction entry, and a wrapper all of whose directions were discarded
produces no `StopPredictions` entry. -/
theorem decodePredictions_nonempty_spec (doc dirEl predEl : XMLElement) :
    (∀ sp ∈ decodePredictions doc,
      sp.directions ≠ [] ∧ ∀ d ∈ sp.directions, d.predictions ≠ []) ∧
    (elQSA dirEl (toUTF16 "prediction") = [] → decodePredDirection dirEl = none) ∧
    ((elQSA predEl (toUTF16 "direction")).filterMap decodePredDirection = [] →
      decodeStopPredictions predEl = none) := by
  refine ⟨?_, ?_, ?_⟩
  · intro sp hsp
    obtain ⟨el, _, heq⟩ := List.mem_filterMap.mp hsp
    simp only [decodeStopPredictions] at heq
    split at heq
    case isTrue hlen =>
      injection heq with h2
      subst h2
      refine ⟨List.ne_nil_of_length_pos hlen, ?_⟩
      intro d hd
      obtain ⟨dEl, _, hdEq⟩ := List.mem_filterMap.mp hd
      exact decodePredDirection_some_ne_nil dEl d hdEq
    case isFalse => exact absurd heq (by simp)
  · intro h
    simp [decodePredDirection, h]
  · intro h
    simp [decodeStopPredictions, h]

/-- Witness for C6 at a concrete predictions document: the single
surviving record (the empty direction and the all-empty wrapper are
dropped) has a non-empty direction list whose direction has a non-empty
prediction list. -/
theorem decodePredictions_nonempty_spec_witness :
    exDecodedSP.directions ≠ [] ∧
    decodePredictions exPredDoc = [exDecodedSP] := by
  refine ⟨?_, by decide⟩
  have hmem : exDecodedSP ∈ decodePredictions exPredDoc := by
    rw [show decodePredictions exPredDoc = [exDecodedSP] from by decide]
    exact List.mem_singleton.mpr rfl
  exact ((decodePredictions_nonempty_spec exPredDoc emptyDoc emptyDoc).1 exDecodedSP hmem).1

/-- C9: a path element with zero point children contributes no entry
to the decoded route's path list — the number of decoded paths equals
the number of path elements with at least one point, and every path of
every decoded route is non-empty; the decode is deterministic (equal
documents decode equally). -/
theorem decodeRoutes_paths_spec (doc routeEl : XMLElement) :
    (∀ route ∈ decodeRoutes doc, ∀ path ∈ route.paths, path ≠ []) ∧
    ((decodeRoute routeEl).paths.length =
      ((elQSA routeEl (toUTF16 "path")).filter fun p =>
        !(elQSA p (toUTF16 "point")).isEmpty).length) ∧
    (∀ d1 d2 : XMLElement, d1 = d2 → decodeRoutes d1 = decodeRoutes d2) := by
  refine ⟨?_, ?_, ?_⟩
  · intro route hroute path hpath
    obtain ⟨el, _, heq⟩ := List.mem_map.mp hroute
    subst heq
    have hpath2 : path ∈ ((elQSA el (toUTF16 "path")).map fun pathEl =>
        (elQSA pathEl (toUTF16 "point")).map decodePoint).filter
          fun points => points.length > 0 := hpath
    have hlen := (List.mem_filter.mp hpath2).2
    exact List.ne_nil_of_length_pos (by simpa using hlen)
  · have hrw : (decodeRoute routeEl).paths =
        ((elQSA routeEl (toUTF16 "path")).map fun pathEl =>
          (elQSA pathEl (toUTF16 "point")).map decodePoint).filter
            fun points => points.length > 0 := rfl
    rw [hrw, List.filter_map, List.length_map]
    congr 1
    apply List.filter_congr
    intro p _
    simp only [gt_iff_lt, List.length_pos, decide_not]
    cases hX : elQSA p (toUTF16 "point") with
    | nil => simp [hX]
    | cons a l => simp [hX]
  · intro d1 d2 h
    rw [h]

/-- Witness for C9 at a concrete document: the decoded route of
`exRouteDoc` keeps only the one-point path (the empty path element is
dropped), and that surviving path is non-empty. -/
theorem decodeRoutes_paths_spec_witness :
    ([decodePoint exPointEl] : List PathPoint) ≠ [] ∧
    (decodeRoute exRouteEl).paths = [[decodePoint exPointEl]] := by
  have hpaths : (decodeRoute exRouteEl).paths = [[decodePoint exPointEl]] := rfl
  have h1 : decodeRoute exRouteEl ∈ decodeRoutes exRouteDoc := by
    rw [show decodeRoutes exRouteDoc = [decodeRoute exRouteEl] from rfl]
    exact List.mem_singleton.mpr rfl
  have h2 : [decodePoint exPointEl] ∈ (decodeRoute exRouteEl).paths := by
    rw [hpaths]
    exact List.mem_singleton.mpr rfl
  exact ⟨(decodeRoutes_paths_spec exRouteDoc exRouteEl).1 (decodeRoute exRouteEl) h1
    [decodePoint exPointEl] h2, hpaths⟩

/-- C10: the decoded boolean fields `useForUI`, `isDeparture`, and
`affectedByLayover` are true exactly when the raw attribute (no
sanitization is applied to it) is the exact string "true"; an absent
attribute or any other value — "True", "TRUE", "1" — yields false. -/
theorem booleanAttrs_exact_true_spec (dirEl pEl : XMLElement) :
    ((decodeDirection dirEl).useForUI = true ↔
      getAttr dirEl (toUTF16 "useForUI") = some (toUTF16 "true")) ∧
    ((decodePrediction pEl).isDeparture = true ↔
      getAttr pEl (toUTF16 "isDeparture") = some (toUTF16 "true")) ∧
    ((decodePrediction pEl).affectedByLayover = true ↔
      getAttr pEl (toUTF16 "affectedByLayover") = some (toUTF16 "true")) ∧
    (getAttr dirEl (toUTF16 "useForUI") = none → (decodeDirection dirEl).useForUI = false) ∧
    (∀ v, getAttr dirEl (toUTF16 "useForUI") = some v → v ≠ toUTF16 "true" →
      (decodeDirection dirEl).useForUI = false) := by
  refine ⟨by simp [decodeDirection], by simp [decodePrediction], by simp [decodePrediction],
    ?_, ?_⟩
  · intro h
    simp [decodeDirection, h]
  · intro v hv hne
    simp [decodeDirection, hv, hne]

/-- Witness for C10 at concrete elements: the attribute value "True"
(capitalized) decodes to false, the exact "true" decodes to true. -/
theorem booleanAttrs_exact_true_spec_witness :
    (decodeDirection exDirTrueCapEl).useForUI = false ∧
    (decodeDirection exDirEl).useForUI = true := by
  constructor
  · exact (booleanAttrs_exact_true_spec exDirTrueCapEl emptyDoc).2.2.2.2
      (toUTF16 "True") (by decide) (by decide)
  · exact (booleanAttrs_exact_true_spec exDirEl emptyDoc).1.mpr (by decide)

/-- When every fetch in the loop succeeds, the loop issues one request
per route in order and returns the in-order concatenation. -/
theorem fetchLoop_ok
    (predFetch : JSString → JSString → Except FetchError (List StopPredictions))
    (stopTag : JSString) (f : Route → List StopPredictions) :
    ∀ l : List Route, (∀ r ∈ l, predFetch stopTag r.tag = .ok (f r)) →
      fetchLoop predFetch stopTag l = (.ok (l.flatMap f), l.map Route.tag) := by
  intro l
  induction l with
  | nil => intro _; rfl
  | cons r rs ih =>
    intro h
    have hr := h r (List.mem_cons_self r rs)
    have hrest := ih fun x hx => h x (List.mem_cons_of_mem _ hx)
    simp [fetchLoop, hr, hrest, Except.map]

/-- The loop stops at the first failing fetch: the failure propagates
and no request after the failing one is issued. -/
theorem fetchLoop_abort
    (predFetch : JSString → JSString → Except FetchError (List StopPredictions))
    (stopTag : JSString) (e : FetchError) (r0 : Route)
    (hfail : predFetch stopTag r0.tag = .error e) :
    ∀ pre post : List Route, (∀ r ∈ pre, ∃ ps, predFetch stopTag r.tag = .ok ps) →
      fetchLoop predFetch stopTag (pre ++ r0 :: post) =
        (.error e, (pre ++ [r0]).map Route.tag) := by
  intro pre
  induction pre with
  | nil =>
    intro post _
    simp [fetchLoop, hfail]
  | cons r rs ih =>
    intro post h
    obtain ⟨ps, hps⟩ := h r (List.mem_cons_self r rs)
    have hrest := ih post fun x hx => h x (List.mem_cons_of_mem _ hx)
    simp [fetchLoop, hps, hrest, Except.map]

/-- C7: `fetchAllPredictionsForStop` issues exactly one prediction
fetch per route whose stop list contains the tag (and no fetch for any
other route), sequentially in input order, and returns the
concatenation of the per-route results in that order; when no route
serves the stop the result is the empty list, not an error. -/
theorem fetchAllPredictionsForStop_spec
    (predFetch : JSString → JSString → Except FetchError (List StopPredictions))
    (routes : List Route) (stopTag : JSString) (f : Route → List StopPredictions)
    (h : ∀ r ∈ routesServing routes stopTag, predFetch stopTag r.tag = .ok (f r)) :
    fetchAllRequests predFetch routes stopTag = (routesServing routes stopTag).map Route.tag ∧
    fetchAllPredictionsForStop predFetch routes stopTag =
      .ok ((routesServing routes stopTag).flatMap f) ∧
    (∀ r, r ∈ routesServing routes stopTag ↔ r ∈ routes ∧ ∃ s ∈ r.stops, s.tag = stopTag) ∧
    (routesServing routes stopTag = [] →
      fetchAllPredictionsForStop predFetch routes stopTag = .ok []) := by
  have hl := fetchLoop_ok predFetch stopTag f (routesServing routes stopTag) h
  have h2 : fetchAllPredictionsForStop predFetch routes stopTag =
      .ok ((routesServing routes stopTag).flatMap f) := by
    simp [fetchAllPredictionsForStop, fetchAllPredictionsForStopTr, hl]
  refine ⟨?_, h2, ?_, ?_⟩
  · simp [fetchAllRequests, fetchAllPredictionsForStopTr, hl]
  · intro r
    simp [routesServing, List.mem_filter, List.any_eq_true]
  · intro he
    rw [h2, he]
    rfl

/-- Witness for C7: of the three routes in `exRoutes` exactly the first
and third serve stop "123"; with the always-succeeding oracle, exactly
two fetches are issued, in input order, and the results are
concatenated in that order. -/
theorem fetchAllPredictionsForStop_spec_witness :
    fetchAllRequests exOkFetch exRoutes (toUTF16 "123") = [toUTF16 "A", toUTF16 "C"] ∧
    fetchAllPredictionsForStop exOkFetch exRoutes (toUTF16 "123") =
      .ok (exOkResult routeA ++ exOkResult routeC) := by
  have hok : ∀ r ∈ routesServing exRoutes (toUTF16 "123"),
      exOkFetch (toUTF16 "123") r.tag = .ok (exOkResult r) := by
    intro r hr
    rw [show routesServing exRoutes (toUTF16 "123") = [routeA, routeC] from rfl] at hr
    rcases List.mem_cons.mp hr with rfl | hr
    · rfl
    · rw [List.mem_singleton] at hr
      subst hr
      rfl
  have h := fetchAllPredictionsForStop_spec exOkFetch exRoutes (toUTF16 "123") exOkResult hok
  constructor
  · rw [h.1]
    rfl
  · rw [h.2.1]
    rfl

/-- C8: if a per-route fetch inside `fetchAllPredictionsForStop` fails,
the failure propagates unchanged and no later per-route request is
issued — the requests actually issued are exactly those for the
preceding (successful) routes plus the failing one. -/
theorem fetchAllPredictionsForStop_abort_spec
    (predFetch : JSString → JSString → Except FetchError (List StopPredictions))
    (routes : List Route) (stopTag : JSString) (pre post : List Route) (r0 : Route)
    (e : FetchError)
    (hs : routesServing routes stopTag = pre ++ r0 :: post)
    (hpre : ∀ r ∈ pre, ∃ ps, predFetch stopTag r.tag = .ok ps)
    (hfail : predFetch stopTag r0.tag = .error e) :
    fetchAllPredictionsForStop predFetch routes stopTag = .error e ∧
    fetchAllRequests predFetch routes stopTag = (pre ++ [r0]).map Route.tag := by
  have hl := fetchLoop_abort predFetch stopTag e r0 hfail pre post hpre
  constructor
  · simp [fetchAllPredictionsForStop, fetchAllPredictionsForStopTr, hs, hl]
  · simp [fetchAllRequests, fetchAllPredictionsForStopTr, hs, hl]

/-- Witness for C8: with an oracle failing on route "C", the aggregate
fetch over `exRoutes` propagates the parse error after issuing only the
requests for routes "A" (successful) and "C" (failing); the non-serving
route "B" is never contacted. -/
theorem fetchAllPredictionsForStop_abort_spec_witness :
    fetchAllPredictionsForStop exFailFetch exRoutes (toUTF16 "123") = .error .parseError ∧
    fetchAllRequests exFailFetch exRoutes (toUTF16 "123") = [toUTF16 "A", toUTF16 "C"] := by
  have hpre : ∀ r ∈ [routeA], ∃ ps, exFailFetch (toUTF16 "123") r.tag = .ok ps := by
    intro r hr
    rw [List.mem_singleton] at hr
    subst hr
    exact ⟨[], rfl⟩
  have h := fetchAllPredictionsForStop_abort_spec exFailFetch exRoutes (toUTF16 "123")
    [routeA] [] routeC .parseError rfl hpre rfl
  exact ⟨h.1, by rw [h.2]; rfl⟩
